import Mathlib

/-!
Verification of the command-dispatch / plugin CLI engine
(`src/domain/types.ts`, `src/application/cliEngine.ts`, `src/application/pluginManager.ts`,
`src/infrastructure/commandRegistry.ts`, `src/infrastructure/errorHandler.ts`,
`src/infrastructure/eventEmitter.ts`, `src/infrastructure/inputOutput.ts`,
`src/adapters/agentInterface.ts`).

Shallow embedding conventions:
* JavaScript `Map` / plain-object stores are association lists with
  JS `Map.set` semantics (replace the existing key in place, else append).
* Wall-clock time (`Date.now()`): each dispatcher entry point takes a `now`
  (timestamp for `new Date()` constructions) and an `elapsed` value standing
  for the `Date.now() - startTime` measurement at the single return point a
  call reaches.  Dates are opaque instants; we model them as `Nat`.
* Thrown exceptions are `Except String` values (`.error msg` carries
  `error.message`).
* Side effects that the spec's properties observe (how often a command's
  `execute` ran, which events were emitted, which listeners were invoked)
  are returned explicitly as counters / traces.
-/

/-! ### JS `Map` model: association list with `Map.set` semantics -/

/-- Model of `m.get(k)` on a JS `Map` (first entry with the key). -/
def mapGet? {α : Type} : List (String × α) → String → Option α
  | [], _ => none
  | p :: ps, k => if p.1 = k then some p.2 else mapGet? ps k

/-- Model of `m.set(k, v)` on a JS `Map`: replace the entry for `k` in place, else append. -/
def mapSet {α : Type} : List (String × α) → String → α → List (String × α)
  | [], k, v => [(k, v)]
  | p :: ps, k, v => if p.1 = k then (k, v) :: ps else p :: mapSet ps k v

/-- Model of `m.delete(k)` on a JS `Map`. -/
def mapDelete {α : Type} : List (String × α) → String → List (String × α)
  | [], _ => []
  | p :: ps, k => if p.1 = k then ps else p :: mapDelete ps k

/-- Model of `m.has(k)` on a JS `Map`. -/
def mapHas {α : Type} (m : List (String × α)) (k : String) : Bool :=
  (mapGet? m k).isSome

theorem mapGet?_set_self {α : Type} (m : List (String × α)) (k : String) (v : α) :
    mapGet? (mapSet m k v) k = some v := by
  induction m with
  | nil => simp [mapGet?, mapSet]
  | cons p ps ih =>
    by_cases h : p.1 = k
    · simp [mapGet?, mapSet, h]
    · simp [mapGet?, mapSet, h, ih]

theorem mapGet?_set_other {α : Type} (m : List (String × α)) (k k' : String) (v : α)
    (h : k' ≠ k) : mapGet? (mapSet m k v) k' = mapGet? m k' := by
  induction m with
  | nil => simp [mapGet?, mapSet, Ne.symm h]
  | cons p ps ih =>
    by_cases hp : p.1 = k
    · subst hp
      simp [mapGet?, mapSet, Ne.symm h]
    · by_cases hq : p.1 = k'
      · simp [mapGet?, mapSet, hp, hq, h]
      · simp [mapGet?, mapSet, hp, hq, ih]

theorem mapSet_set_same {α : Type} (m : List (String × α)) (k : String) (v w : α) :
    mapSet (mapSet m k v) k w = mapSet m k w := by
  induction m with
  | nil => simp [mapSet]
  | cons p ps ih =>
    by_cases h : p.1 = k
    · simp [mapSet, h]
    · simp [mapSet, h, ih]

theorem mapSet_eq_append {α : Type} (m : List (String × α)) (k : String) (v : α)
    (h : mapGet? m k = none) : mapSet m k v = m ++ [(k, v)] := by
  induction m with
  | nil => simp [mapSet]
  | cons p ps ih =>
    by_cases hp : p.1 = k
    · simp [mapGet?, hp] at h
    · simp [mapGet?, hp] at h
      simp [mapSet, hp, ih h]

/-! ### JS `String.prototype.toLowerCase` / `toUpperCase`

The repository's registry case-folds names with `toLowerCase()`.  We model the
basic-latin behaviour (the only one the command names exercise) character by
character with core's `Char.toLower` / `Char.toUpper`, mapped over the string's
character list. -/

def jsToLowerCase (s : String) : String := ⟨s.data.map Char.toLower⟩

def jsToUpperCase (s : String) : String := ⟨s.data.map Char.toUpper⟩

theorem charToLower_def (c : Char) :
    c.toLower = if 65 ≤ c.toNat ∧ c.toNat ≤ 90 then Char.ofNat (c.toNat + 32) else c := rfl

theorem charToUpper_def (c : Char) :
    c.toUpper = if 97 ≤ c.toNat ∧ c.toNat ≤ 122 then Char.ofNat (c.toNat - 32) else c := rfl

theorem charToNat_ofNat {n : Nat} (h : n.isValidChar) : (Char.ofNat n).toNat = n := by
  simp [Char.ofNat, dif_pos h, Char.ofNatAux, Char.toNat, UInt32.toNat, BitVec.toNat_ofNatLt]

theorem charToLower_toUpper (c : Char) : c.toUpper.toLower = c.toLower := by
  by_cases h : 97 ≤ c.toNat ∧ c.toNat ≤ 122
  · have hup : c.toUpper = Char.ofNat (c.toNat - 32) := by rw [charToUpper_def, if_pos h]
    have ht : (Char.ofNat (c.toNat - 32)).toNat = c.toNat - 32 :=
      charToNat_ofNat (Or.inl (by omega))
    rw [hup, charToLower_def, ht, if_pos (by omega), charToLower_def, if_neg (by omega)]
    have : c.toNat - 32 + 32 = c.toNat := by omega
    rw [this, Char.ofNat_toNat]
  · rw [charToUpper_def, if_neg h]

theorem charToLower_toLower (c : Char) : c.toLower.toLower = c.toLower := by
  by_cases h : 65 ≤ c.toNat ∧ c.toNat ≤ 90
  · have hlo : c.toLower = Char.ofNat (c.toNat + 32) := by rw [charToLower_def, if_pos h]
    have ht : (Char.ofNat (c.toNat + 32)).toNat = c.toNat + 32 :=
      charToNat_ofNat (Or.inl (by omega))
    rw [hlo, charToLower_def, ht, if_neg (by omega)]
  · have hlo : c.toLower = c := by rw [charToLower_def, if_neg h]
    simp [hlo]

theorem jsToLowerCase_jsToUpperCase (s : String) :
    jsToLowerCase (jsToUpperCase s) = jsToLowerCase s := by
  simp only [jsToLowerCase, jsToUpperCase, List.map_map]
  exact congrArg String.mk (List.map_congr_left fun c _ => charToLower_toUpper c)

theorem jsToLowerCase_jsToLowerCase (s : String) :
    jsToLowerCase (jsToLowerCase s) = jsToLowerCase s := by
  simp only [jsToLowerCase, List.map_map]
  exact congrArg String.mk (List.map_congr_left fun c _ => charToLower_toLower c)

/-! ### JS string primitives

Core `String.startsWith`/`splitOn`/`drop` are implemented with iterator loops
that the kernel cannot unfold, so the JS string operations the code uses are
modelled directly on the character list (structural recursion, hence
evaluable). -/

/-- JS `s.startsWith(pre)`. -/
def jsStartsWith (s pre : String) : Bool := pre.data.isPrefixOf s.data

/-- JS `s.endsWith(suf)`. -/
def jsEndsWith (s suf : String) : Bool := suf.data.isSuffixOf s.data

/-- JS `s.substring(n)` (drop the first `n` characters). -/
def jsSubstringFrom (s : String) (n : Nat) : String := ⟨s.data.drop n⟩

/-- JS `s.split(sep)` for a single-character separator, on character lists. -/
def jsSplitCharList (sep : Char) : List Char → List (List Char)
  | [] => [[]]
  | c :: cs =>
    let r := jsSplitCharList sep cs
    if c = sep then [] :: r else (c :: r.headD []) :: r.tail

/-- JS `s.split(sep)` for a single-character separator. -/
def jsSplitChar (s : String) (sep : Char) : List String :=
  (jsSplitCharList sep s.data).map String.mk

/-- JS `array.join(sep)`. -/
def jsJoin (sep : String) : List String → String
  | [] => ""
  | [x] => x
  | x :: y :: xs => x ++ sep ++ jsJoin sep (y :: xs)

/-! ### Domain types (`src/domain/types.ts`) -/

/-- The `CLIContext.outputFormat` string union `'text' | 'json'`. -/
inductive OutputFormat
  | text
  | json
deriving DecidableEq, Repr

/-- A value of the `options` record: `string | boolean | string[]`
(the parser only ever stores strings and `true`). -/
inductive OptValue
  | str (s : String)
  | boolean (b : Bool)
  | strs (l : List String)
deriving DecidableEq, Repr

/-- The `CLIContext` interface from `src/domain/types.ts`.  `options` is a JS object used as
a string-keyed map (insertion order, assignment replaces). -/
structure CLIContext where
  arguments : List String
  options : List (String × OptValue)
  outputFormat : OutputFormat
  verbose : Bool
deriving DecidableEq, Repr

/-- Model of `CommandResult.data`, whose TS type is `any`.  The formatter only distinguishes string
data from non-string data (which it renders with `JSON.stringify(·, null, 2)`);
we model a datum as either a string or an opaque non-string value carried
together with its JSON rendering.  (Falsy non-string data such as `0` or
`null` is not modelled; the repository's commands only produce objects and
strings.) -/
inductive ResData
  | str (s : String)
  | json (pretty : String)
deriving DecidableEq, Repr

/-- The `CommandResult` interface from `src/domain/types.ts`.  `timestamp` is an opaque
instant (`Date`); `executionTimeMs` is a JS number, modelled as `Int`. -/
structure CommandResult where
  success : Bool
  data : Option ResData := none
  error : Option String := none
  message : Option String := none
  timestamp : Nat
  executionTimeMs : Int
deriving DecidableEq, Repr

/-- The `{ valid: boolean; errors: string[] }` validation outcome. -/
structure ValidationResult where
  valid : Bool
  errors : List String
deriving DecidableEq, Repr

/-- The abstract `Command` class.  `execute` is async and may throw
(`Except.error msg` carries the thrown error's `.message`). -/
structure Command where
  name : String
  description : String
  usage : String
  validate : CLIContext → ValidationResult
  execute : CLIContext → Except String CommandResult

/-- Lifecycle events delivered through the event emitter, with the payload
fields the dispatcher / plugin manager attach.  `commandFailed`'s
`commandName` is `none` when emitted from `execute`'s outer catch (where the
payload is `{ error }` only). -/
inductive CLIEvent
  | commandExecuted (commandName : String) (result : CommandResult)
  | commandFailed (commandName : Option String) (errMsg : String)
  | pluginLoaded (pluginName : String)
  | pluginUnloaded (pluginName : String)
deriving DecidableEq, Repr

/-! ### Input parser (`CLIInputValidator.parseArguments`) -/

namespace CLIInputValidator

/-- One iteration of the `--`-branch of the parse loop:
`const parts = arg.substring(2).split('='); const key = parts[0];
const value = parts.length > 1 ? parts[1] : true;` followed by the
`output`/`format`/`verbose` special cases. -/
def processLongOption (ctx : CLIContext) (arg : String) : CLIContext :=
  let parts := jsSplitChar (jsSubstringFrom arg 2) '='
  let key := parts.headD ""
  let value : OptValue :=
    if parts.length > 1 then OptValue.str (parts.getD 1 "") else OptValue.boolean true
  if key = "output" ∨ key = "format" then
    { ctx with outputFormat := if value = OptValue.str "json" then OutputFormat.json else OutputFormat.text }
  else if key = "verbose" then
    { ctx with verbose := true }
  else
    { ctx with options := mapSet ctx.options key value }

/-- One iteration of the `-`-branch: each character of `arg.substring(1)` is an
independent flag; `j` selects JSON output, `v` sets verbose, and every flag is
also stored in `options` with value `true`. -/
def processShortFlags (ctx : CLIContext) (arg : String) : CLIContext :=
  (jsSubstringFrom arg 1).data.foldl
    (fun ctx flag =>
      let ctx := if flag = 'j' then { ctx with outputFormat := OutputFormat.json } else ctx
      let ctx := if flag = 'v' then { ctx with verbose := true } else ctx
      { ctx with options := mapSet ctx.options (String.singleton flag) (OptValue.boolean true) })
    ctx

/-- Model of `CLIInputValidator.parseArguments` from `src/infrastructure/inputOutput.ts`. -/
def parseArguments (args : List String) : CLIContext :=
  args.foldl
    (fun ctx arg =>
      if jsStartsWith arg "--" then processLongOption ctx arg
      else if jsStartsWith arg "-" then processShortFlags ctx arg
      else { ctx with arguments := ctx.arguments ++ [arg] })
    { arguments := [], options := [], outputFormat := OutputFormat.text, verbose := false }

end CLIInputValidator

/-! ### Command registry (`CommandRecordRegistry`) -/

/-- The registry's backing `Map<string, Command>`. -/
abbrev Registry := List (String × Command)

namespace CommandRecordRegistry

/-- Method `register`: `commands.set(command.name.toLowerCase(), command)`. -/
def register (reg : Registry) (command : Command) : Registry :=
  mapSet reg (jsToLowerCase command.name) command

/-- Method `unregister`: `commands.delete(commandName.toLowerCase())`. -/
def unregister (reg : Registry) (commandName : String) : Registry :=
  mapDelete reg (jsToLowerCase commandName)

/-- Method `get`: `commands.get(commandName.toLowerCase()) || null`. -/
def get (reg : Registry) (commandName : String) : Option Command :=
  mapGet? reg (jsToLowerCase commandName)

/-- Method `getAll`: `Array.from(commands.values())`. -/
def getAll (reg : Registry) : List Command :=
  reg.map (·.2)

/-- Invariant of every registry reachable through `register`/`unregister` from
the empty map: keys are unique and each key is the lower-cased name of its
command. -/
def WF (reg : Registry) : Prop :=
  (reg.map (·.1)).Nodup ∧ ∀ p ∈ reg, p.1 = jsToLowerCase p.2.name

end CommandRecordRegistry

/-! ### Error handler (`CLIErrorHandler`, `src/infrastructure/errorHandler.ts`) -/

/-- Model of `CLIErrorHandler.handle`: builds the failure `CommandResult` from a caught
error (`error.message`), with `executionTimeMs: 0` (overwritten by callers). -/
def CLIErrorHandler.handle (msg : String) (now : Nat) : CommandResult :=
  { success := false, error := some msg, data := none, message := none,
    timestamp := now, executionTimeMs := 0 }

/-- The message produced by `new CommandNotFoundError(commandName)`. -/
def commandNotFoundMessage (commandName : String) : String :=
  "Command not found: '" ++ commandName ++ "'"

/-! ### Dispatcher (`StandardCLIEngine`, `src/application/cliEngine.ts`)

Both entry points are total: every exception the code can raise is caught and
converted into a failure `CommandResult`, which the embedding reflects by
returning plain values ("never throws").  Beyond the `CommandResult` each
function returns the number of times the resolved command's `execute` ran and
the list of events emitted, which are the side effects the spec's properties
observe. -/

namespace StandardCLIEngine

/-- Model of `executeCommand(commandName, context)`.  `now` models `new Date()` at the
return point, `elapsed` the `Date.now() - startTime` measurement there. -/
def executeCommand (reg : Registry) (commandName : String) (context : CLIContext)
    (now : Nat) (elapsed : Int) : CommandResult × Nat × List CLIEvent :=
  match CommandRecordRegistry.get reg commandName with
  | none =>
    -- `throw new CommandNotFoundError(commandName)`, caught by the local
    -- catch: `errorHandler.handle` then `executionTimeMs` overwritten,
    -- `command:failed` emitted.
    let r := { CLIErrorHandler.handle (commandNotFoundMessage commandName) now with
                 executionTimeMs := elapsed }
    (r, 0, [CLIEvent.commandFailed (some commandName) (commandNotFoundMessage commandName)])
  | some command =>
    let validation := command.validate context
    if validation.valid then
      match command.execute context with
      | Except.ok result =>
        let result := { result with executionTimeMs := elapsed }
        (result, 1, [CLIEvent.commandExecuted commandName result])
      | Except.error msg =>
        let r := { CLIErrorHandler.handle msg now with executionTimeMs := elapsed }
        (r, 1, [CLIEvent.commandFailed (some commandName) msg])
    else
      ({ success := false, data := none, error := some "Validation failed",
         message := some (jsJoin "; " validation.errors),
         timestamp := now, executionTimeMs := elapsed }, 0, [])

/-- Model of `execute(args)`: parse, peel off the command name, delegate.  An empty
positional-argument list raises `CommandNotFoundError('No command specified')`,
caught by `execute`'s own catch (which emits `command:failed` with an
`{ error }` payload, no command name). -/
def execute (reg : Registry) (args : List String) (now : Nat) (elapsed : Int) :
    CommandResult × Nat × List CLIEvent :=
  let context := CLIInputValidator.parseArguments args
  match context.arguments with
  | [] =>
    let r := { CLIErrorHandler.handle (commandNotFoundMessage "No command specified") now with
                 executionTimeMs := elapsed }
    (r, 0, [CLIEvent.commandFailed none (commandNotFoundMessage "No command specified")])
  | commandName :: commandArgs =>
    executeCommand reg commandName { context with arguments := commandArgs } now elapsed

end StandardCLIEngine

/-! ### Output formatter (`CLIOutputFormatter`, `src/infrastructure/inputOutput.ts`) -/

namespace CLIOutputFormatter

/-- JS truthiness of an optional string field (`if (result.message)` …):
`undefined` and `""` are falsy. -/
def jsTruthyStr : Option String → Bool
  | none => false
  | some s => !(s = "")

/-- JS truthiness of the `data` field: `undefined` and `""` are falsy,
non-string data (objects) is truthy. -/
def jsTruthyData : Option ResData → Bool
  | none => false
  | some (ResData.str s) => !(s = "")
  | some (ResData.json _) => true

/-- The `typeof result.data === 'string' ? data : JSON.stringify(data, null, 2)`
rendering of a datum. -/
def renderData : Option ResData → String
  | none => ""
  | some (ResData.str s) => s
  | some (ResData.json pretty) => pretty

/-- Minimal JSON string escaping used by the JSON branch (quotes, backslash,
newline; other control characters do not occur in this development). -/
def jsonEscape (s : String) : String :=
  s.data.foldl
    (fun acc c =>
      if c = '\\' then acc ++ "\\\\"
      else if c = '\x22' then acc ++ "\\\x22"
      else if c = '\n' then acc ++ "\\n"
      else acc ++ String.singleton c)
    ""

/-- One `"key": value` line of the pretty-printed JSON object. -/
def jsonLine (key value : String) : String :=
  "  \x22" ++ key ++ "\x22: " ++ value

/-- The JSON branch: `JSON.stringify({success, data, error, message,
timestamp: …toISOString(), executionTimeMs}, null, 2)`.  Keys with `undefined`
values are omitted by `JSON.stringify`; `data`'s own rendering is the carried
pretty form; the `Date`'s ISO rendering is abstracted to the decimal rendering
of the opaque instant. -/
def formatJson (result : CommandResult) : String :=
  let fields :=
    [some (jsonLine "success" (if result.success then "true" else "false"))] ++
    [result.data.map (fun d => jsonLine "data"
        (match d with
         | ResData.str s => "\x22" ++ jsonEscape s ++ "\x22"
         | ResData.json pretty => pretty))] ++
    [result.error.map (fun e => jsonLine "error" ("\x22" ++ jsonEscape e ++ "\x22"))] ++
    [result.message.map (fun m => jsonLine "message" ("\x22" ++ jsonEscape m ++ "\x22"))] ++
    [some (jsonLine "timestamp" ("\x22" ++ toString result.timestamp ++ "\x22"))] ++
    [some (jsonLine "executionTimeMs" (toString result.executionTimeMs))]
  "\x7b\n" ++ String.intercalate ",\n" (fields.filterMap id) ++ "\n\x7d"

/-- The text branch of `CLIOutputFormatter.format`, exactly as the code builds
the string (including the JS-truthiness guards on `message`, `data`, `error`). -/
def formatText (result : CommandResult) : String :=
  if result.success then
    let output := "✅ Success"
    let output := if jsTruthyStr result.message
      then output ++ ": " ++ result.message.getD "" else output
    let output := if jsTruthyData result.data
      then output ++ "\n\nData:\n" ++ renderData result.data else output
    output ++ "\n\nExecution time: " ++ toString result.executionTimeMs ++ "ms"
  else
    let output := "❌ Error"
    let output := if jsTruthyStr result.error
      then output ++ ": " ++ result.error.getD "" else output
    if jsTruthyStr result.message
      then output ++ "\nMessage: " ++ result.message.getD "" else output

/-- Model of `CLIOutputFormatter.format(result, format)`. -/
def format (result : CommandResult) (fmt : OutputFormat) : String :=
  match fmt with
  | OutputFormat.json => formatJson result
  | OutputFormat.text => formatText result

end CLIOutputFormatter

/-! ### Event emitter (`CLIEventEmitter`, `src/infrastructure/eventEmitter.ts`)

A listener callback is arbitrary JS code; the emitter distinguishes callbacks
only by reference identity (`Set` membership) and observes only whether an
invocation throws.  We model a callback as a reference id plus its
throws-on-invocation behaviour. -/

/-- A listener callback: `id` is the function's reference identity, `throws`
whether invoking it raises. -/
structure Callback where
  id : Nat
  throws : Bool
deriving DecidableEq, Repr

namespace CLIEventEmitter

/-- Model of `Set.prototype.add`: insertion-ordered, deduplicating by identity. -/
def setAdd (s : List Callback) (cb : Callback) : List Callback :=
  if s.contains cb then s else s ++ [cb]

/-- The emitter's state: `listeners: Map<string, Set<(data) => void>>`. -/
structure State where
  listeners : List (String × List Callback)
deriving Repr

/-- The emitter with no listeners. -/
def empty : State := ⟨[]⟩

/-- Method `on(event, callback)`: create the event's set if absent, then add.
(`on` is a reserved word in Lean, hence `on'`.) -/
def on' (em : State) (event : String) (cb : Callback) : State :=
  let s := (mapGet? em.listeners event).getD []
  ⟨mapSet em.listeners event (setAdd s cb)⟩

/-- Method `off(event, callback)`: if the event has a set, delete the callback. -/
def off (em : State) (event : String) (cb : Callback) : State :=
  match mapGet? em.listeners event with
  | none => em
  | some s => ⟨mapSet em.listeners event (s.erase cb)⟩

/-- Method `emit(event, data)`: invoke every callback of the event's set in insertion
order; a throw is caught per callback (`try … catch`) and delivery continues,
so `emit` always returns normally.  The returned trace records each invocation
as `(reference id, threw)`. -/
def emit (em : State) (event : String) : List (Nat × Bool) :=
  match mapGet? em.listeners event with
  | none => []
  | some callbacks => callbacks.map (fun cb => (cb.id, cb.throws))

end CLIEventEmitter

/-! ### Plugin manager (`PluginManager`, `src/application/pluginManager.ts`) -/

/-- A `Plugin`; `init` models `plugin.initialize(container)` and is `.error e`
when initialization throws (its registry side effects are not observed by the
claims and are left abstract). -/
structure Plugin where
  init : Except String Unit

namespace PluginManager

/-- The manager's `loadedPlugins: Map<string, Plugin>`. -/
structure State where
  loadedPlugins : List (String × Plugin)

/-- A manager with no plugins loaded. -/
def empty : State := ⟨[]⟩

/-- Method `loadPlugin(name, plugin)`: await `initialize`; on success record the
plugin and emit `plugin:loaded`; on failure log and re-raise (the returned
state is unchanged and nothing is emitted).  The triple is (state after the
call, events emitted, normal return or re-raised error). -/
def loadPlugin (pm : State) (name : String) (plugin : Plugin) :
    State × List CLIEvent × Except String Unit :=
  match plugin.init with
  | Except.ok _ =>
    (⟨mapSet pm.loadedPlugins name plugin⟩, [CLIEvent.pluginLoaded name], Except.ok ())
  | Except.error e => (pm, [], Except.error e)

/-- Method `getLoadedPlugins()`: `Array.from(loadedPlugins.keys())`. -/
def getLoadedPlugins (pm : State) : List String :=
  pm.loadedPlugins.map (·.1)

/-- Method `isPluginLoaded(name)`: `loadedPlugins.has(name)`. -/
def isPluginLoaded (pm : State) (name : String) : Bool :=
  mapHas pm.loadedPlugins name

end PluginManager

/-! ### Agent adapter (`ProgrammaticCLIAgent`, `src/adapters/agentInterface.ts`) -/

/-- A `ToolParameter` (`{name, type, description, required}`; the optional
`enum`/`schema` members are never produced by `parseUsageToParameters`). -/
structure ToolParameter where
  name : String
  type : String
  description : String
  required : Bool
deriving DecidableEq, Repr

/-- An `AgentTool`.  Its `execute` member is a closure capturing the command's
name and the engine; we record the captured name (`cmdName`) as the closure's
meaning. -/
structure AgentTool where
  name : String
  description : String
  parameters : List ToolParameter
  cmdName : String
deriving Repr

namespace ProgrammaticCLIAgent

/-- The state machine for `usage.split(/\s+/)`: `acc` is the reversed current
token, `ws` whether we are inside a whitespace run (whose token was already
emitted). -/
def splitWsGo : List Char → List Char → Bool → List String
  | [], acc, ws => if ws then [""] else [String.mk acc.reverse]
  | c :: cs, acc, ws =>
    if c.isWhitespace then
      if ws then splitWsGo cs [] true
      else String.mk acc.reverse :: splitWsGo cs [] true
    else splitWsGo cs (c :: acc) false

/-- JS `usage.split(/\s+/)`: split on maximal whitespace runs (a leading or
trailing run contributes a leading/trailing empty string, as in JS). -/
def splitWsRuns (s : String) : List String :=
  splitWsGo s.data [] false

/-- Method `parseUsageToParameters(usage)`: drop the leading command-name token, keep
the `<word>` tokens, strip the angle brackets, and declare each as a required
string parameter. -/
def parseUsageToParameters (usage : String) : List ToolParameter :=
  ((splitWsRuns usage).drop 1).filter
    (fun part => jsStartsWith part "<" && jsEndsWith part ">")
    |>.map (fun part =>
      let paramName := String.mk (part.data.filter (fun c => !(c = '<') && !(c = '>')))
      { name := paramName, type := "string",
        description := "Parameter: " ++ paramName, required := true })

/-- The `AgentTool` built for one command inside `buildToolsFromCommands`. -/
def buildTool (command : Command) : AgentTool :=
  { name := command.name, description := command.description,
    parameters := parseUsageToParameters command.usage, cmdName := command.name }

/-- The agent's state: its private `tools: Map<string, AgentTool>`. -/
structure Agent where
  tools : List (String × AgentTool)

/-- The constructor: `buildToolsFromCommands` iterates
`commandRegistry.getAll()` and does `tools.set(command.name, tool)` — a
snapshot of the registry at construction time. -/
def mkAgent (reg : Registry) : Agent :=
  ⟨(CommandRecordRegistry.getAll reg).foldl
      (fun tools command => mapSet tools command.name (buildTool command)) []⟩

/-- Method `getTools()`: `Array.from(tools.values())`. -/
def getTools (agent : Agent) : List AgentTool :=
  agent.tools.map (·.2)

/-- Method `getTool(toolName)`: `tools.get(toolName) || null` (case-sensitive). -/
def getTool (agent : Agent) (toolName : String) : Option AgentTool :=
  mapGet? agent.tools toolName

end ProgrammaticCLIAgent

/-! ## Claims -/

/-! ### Shared concrete fixtures for witnesses -/

/-- The empty registry. -/
def emptyRegistry : Registry := []

/-- A plain default context. -/
def ctx0 : CLIContext :=
  { arguments := [], options := [], outputFormat := OutputFormat.text, verbose := false }

/-- A command whose `validate` always rejects with a fixed error list. -/
def alwaysInvalidCommand : Command :=
  { name := "reject", description := "always invalid", usage := "reject",
    validate := fun _ => { valid := false, errors := ["bad input", "worse input"] },
    execute := fun _ =>
      Except.ok { success := true, timestamp := 0, executionTimeMs := 0 } }

/-- A command that succeeds and self-reports a bogus `executionTimeMs`. -/
def selfTimingCommand : Command :=
  { name := "timer", description := "reports its own time", usage := "timer",
    validate := fun _ => { valid := true, errors := [] },
    execute := fun _ =>
      Except.ok { success := true, data := some (ResData.str "payload"),
                  error := none, message := some "done",
                  timestamp := 42, executionTimeMs := 999 } }

/-! ### C1 -/

/-- C1: if the resolved command's `validate(context)` returns
`{valid: false, errors}`, then `executeCommand` returns a failure result whose
`error` is the literal `"Validation failed"` and whose `message` is the errors
joined by `"; "`, the command's `execute` is never invoked (invocation count
0), and nothing is emitted. -/
theorem claim_C1_validation_short_circuits
    (reg : Registry) (name : String) (ctx : CLIContext) (cmd : Command)
    (errs : List String) (now : Nat) (elapsed : Int)
    (hget : CommandRecordRegistry.get reg name = some cmd)
    (hval : cmd.validate ctx = { valid := false, errors := errs }) :
    StandardCLIEngine.executeCommand reg name ctx now elapsed =
      ({ success := false, data := none, error := some "Validation failed",
         message := some (jsJoin "; " errs), timestamp := now, executionTimeMs := elapsed },
       0, []) := by
  simp [StandardCLIEngine.executeCommand, hget, hval]

/-- Witness for C1 at a concrete registry, command and context. -/
theorem claim_C1_witness :
    CommandRecordRegistry.get (CommandRecordRegistry.register emptyRegistry alwaysInvalidCommand)
        "reject" = some alwaysInvalidCommand ∧
    StandardCLIEngine.executeCommand
        (CommandRecordRegistry.register emptyRegistry alwaysInvalidCommand) "reject" ctx0 5 9 =
      ({ success := false, data := none, error := some "Validation failed",
         message := some "bad input; worse input", timestamp := 5, executionTimeMs := 9 },
       0, []) :=
  ⟨rfl, claim_C1_validation_short_circuits _ "reject" ctx0 alwaysInvalidCommand
      ["bad input", "worse input"] 5 9 rfl rfl⟩

/-! ### C3 -/

/-- Helper: `jsStartsWith` holds whenever the character list of the prefix is
a list prefix of the string's characters. -/
theorem jsStartsWith_of_prefix {s pre : String} (h : pre.data <+: s.data) :
    jsStartsWith s pre = true :=
  List.isPrefixOf_iff_prefix.mpr h

/-- Helper: the `CommandNotFoundError` message always begins with
`"Command not found"` (in particular it is non-empty). -/
theorem commandNotFoundMessage_startsWith (name : String) :
    jsStartsWith (commandNotFoundMessage name) "Command not found" = true := by
  apply jsStartsWith_of_prefix
  have h1 : ("Command not found").data <+: ("Command not found: '").data := by decide
  refine h1.trans ?_
  simp only [commandNotFoundMessage, String.data_append, List.append_assoc]
  exact List.prefix_append _ _

/-- Helper: the `CommandNotFoundError` message is never the empty string. -/
theorem commandNotFoundMessage_ne_empty (name : String) :
    commandNotFoundMessage name ≠ "" := by
  intro h
  have hdata : (commandNotFoundMessage name).data = [] := by rw [h]
  have hpre : ("Command not found: '").data <+: (commandNotFoundMessage name).data := by
    simp only [commandNotFoundMessage, String.data_append, List.append_assoc]
    exact List.prefix_append _ _
  rw [hdata] at hpre
  have hnil := List.prefix_nil.mp hpre
  exact absurd hnil (by decide)

/-- C3: (a) `executeCommand` with an unregistered name and (b) `execute` with
a token list that parses to zero positional arguments both return (rather than
throw — both embeddings are total functions) a result with `success = false`
and a non-empty error that describes the command-not-found condition. -/
theorem claim_C3_command_not_found :
    (∀ (reg : Registry) (name : String) (ctx : CLIContext) (now : Nat) (elapsed : Int),
      CommandRecordRegistry.get reg name = none →
      (StandardCLIEngine.executeCommand reg name ctx now elapsed).1.success = false ∧
      (StandardCLIEngine.executeCommand reg name ctx now elapsed).1.error =
        some (commandNotFoundMessage name) ∧
      commandNotFoundMessage name ≠ "" ∧
      jsStartsWith (commandNotFoundMessage name) "Command not found" = true) ∧
    (∀ (reg : Registry) (args : List String) (now : Nat) (elapsed : Int),
      (CLIInputValidator.parseArguments args).arguments = [] →
      (StandardCLIEngine.execute reg args now elapsed).1.success = false ∧
      (StandardCLIEngine.execute reg args now elapsed).1.error =
        some (commandNotFoundMessage "No command specified") ∧
      commandNotFoundMessage "No command specified" ≠ "") := by
  constructor
  · intro reg name ctx now elapsed h
    refine ⟨?_, ?_, commandNotFoundMessage_ne_empty name, commandNotFoundMessage_startsWith name⟩
    · simp [StandardCLIEngine.executeCommand, h, CLIErrorHandler.handle]
    · simp [StandardCLIEngine.executeCommand, h, CLIErrorHandler.handle]
  · intro reg args now elapsed h
    refine ⟨?_, ?_, commandNotFoundMessage_ne_empty _⟩
    · simp [StandardCLIEngine.execute, h, CLIErrorHandler.handle]
    · simp [StandardCLIEngine.execute, h, CLIErrorHandler.handle]

/-- Witness for C3: an unknown command name against the empty registry, and
`execute` of an empty token list. -/
theorem claim_C3_witness :
    ((StandardCLIEngine.executeCommand emptyRegistry "doesnotexist" ctx0 0 0).1.success = false ∧
     (StandardCLIEngine.executeCommand emptyRegistry "doesnotexist" ctx0 0 0).1.error =
       some (commandNotFoundMessage "doesnotexist") ∧
     commandNotFoundMessage "doesnotexist" ≠ "" ∧
     jsStartsWith (commandNotFoundMessage "doesnotexist") "Command not found" = true) ∧
    ((StandardCLIEngine.execute emptyRegistry [] 0 0).1.success = false ∧
     (StandardCLIEngine.execute emptyRegistry [] 0 0).1.error =
       some (commandNotFoundMessage "No command specified") ∧
     commandNotFoundMessage "No command specified" ≠ "") :=
  ⟨claim_C3_command_not_found.1 emptyRegistry "doesnotexist" ctx0 0 0 rfl,
   claim_C3_command_not_found.2 emptyRegistry [] 0 0 rfl⟩

/-! ### C4 -/

/-- C4: when the resolved command's `execute` returns a result (with an
arbitrary self-reported `executionTimeMs`), the dispatcher's returned result
is that result with `executionTimeMs` overwritten by the dispatcher's own
measured elapsed time, and `success`/`data`/`error`/`message` exactly as the
command returned them. -/
theorem claim_C4_executionTimeMs_overwrite
    (reg : Registry) (name : String) (ctx : CLIContext) (cmd : Command)
    (res : CommandResult) (now : Nat) (elapsed : Int)
    (hget : CommandRecordRegistry.get reg name = some cmd)
    (hvalid : (cmd.validate ctx).valid = true)
    (hexec : cmd.execute ctx = Except.ok res) :
    (StandardCLIEngine.executeCommand reg name ctx now elapsed).1 =
        { res with executionTimeMs := elapsed } ∧
    (StandardCLIEngine.executeCommand reg name ctx now elapsed).1.executionTimeMs = elapsed ∧
    (StandardCLIEngine.executeCommand reg name ctx now elapsed).1.success = res.success ∧
    (StandardCLIEngine.executeCommand reg name ctx now elapsed).1.data = res.data ∧
    (StandardCLIEngine.executeCommand reg name ctx now elapsed).1.error = res.error ∧
    (StandardCLIEngine.executeCommand reg name ctx now elapsed).1.message = res.message := by
  refine ⟨?_, ?_, ?_, ?_, ?_, ?_⟩ <;>
    simp [StandardCLIEngine.executeCommand, hget, hvalid, hexec]

/-- Witness for C4: a command self-reporting `executionTimeMs = 999` while the
dispatcher measured `7`. -/
theorem claim_C4_witness :
    (StandardCLIEngine.executeCommand
        (CommandRecordRegistry.register emptyRegistry selfTimingCommand) "timer" ctx0 50 7).1 =
      { success := true, data := some (ResData.str "payload"), error := none,
        message := some "done", timestamp := 42, executionTimeMs := 7 } ∧
    (999 : Int) ≠ 7 :=
  ⟨(claim_C4_executionTimeMs_overwrite
      (CommandRecordRegistry.register emptyRegistry selfTimingCommand) "timer" ctx0 selfTimingCommand
      { success := true, data := some (ResData.str "payload"), error := none,
        message := some "done", timestamp := 42, executionTimeMs := 999 }
      50 7 rfl rfl rfl).1,
   by decide⟩

/-! ### C2 (corrected) -/

/-- Counterexample to C2 as stated: for the token `"--k=a=b"` the code splits
on every `"="` and takes `parts[1]`, so the stored value is `"a"`, not the
entire substring `"a=b"` after the first `"="`. -/
theorem claim_C2_counterexample :
    mapGet? (CLIInputValidator.parseArguments ["--k=a=b"]).options "k" =
      some (OptValue.str "a") ∧
    OptValue.str "a" ≠ OptValue.str "a=b" := by
  constructor
  · rfl
  · decide

/-- C2 (amended): a token beginning with `--` is split on every `"="`; with no
`"="` the value is boolean `true`, otherwise the value is the segment between
the first and second `"="` (`parts[1]` — so `"--flag="` yields `""`, and
`"--k=a=b"` yields `"a"`).  For a non-special key the pair is stored in
`options`. -/
theorem claim_C2_long_option_value (t : String)
    (hstart : jsStartsWith t "--" = true)
    (hk1 : (jsSplitChar (jsSubstringFrom t 2) '=').headD "" ≠ "output")
    (hk2 : (jsSplitChar (jsSubstringFrom t 2) '=').headD "" ≠ "format")
    (hk3 : (jsSplitChar (jsSubstringFrom t 2) '=').headD "" ≠ "verbose") :
    CLIInputValidator.parseArguments [t] =
      { arguments := [],
        options := [((jsSplitChar (jsSubstringFrom t 2) '=').headD "",
          if (jsSplitChar (jsSubstringFrom t 2) '=').length > 1
          then OptValue.str ((jsSplitChar (jsSubstringFrom t 2) '=').getD 1 "")
          else OptValue.boolean true)],
        outputFormat := OutputFormat.text, verbose := false } := by
  simp only [List.headD_eq_head?_getD] at hk1 hk2 hk3
  simp only [CLIInputValidator.parseArguments, List.foldl_cons, List.foldl_nil, hstart,
    if_true]
  simp [CLIInputValidator.processLongOption, hk1, hk2, hk3, mapSet]

/-- Witness for C2 (amended): `"--k=a=b"` stores `k ↦ "a"`, `"--flag="` stores
`flag ↦ ""`, and `"--flag"` stores `flag ↦ true`. -/
theorem claim_C2_witness :
    jsStartsWith "--k=a=b" "--" = true ∧
    CLIInputValidator.parseArguments ["--k=a=b"] =
      { arguments := [], options := [("k", OptValue.str "a")],
        outputFormat := OutputFormat.text, verbose := false } ∧
    CLIInputValidator.parseArguments ["--flag="] =
      { arguments := [], options := [("flag", OptValue.str "")],
        outputFormat := OutputFormat.text, verbose := false } ∧
    CLIInputValidator.parseArguments ["--flag"] =
      { arguments := [], options := [("flag", OptValue.boolean true)],
        outputFormat := OutputFormat.text, verbose := false } :=
  ⟨by decide,
   claim_C2_long_option_value "--k=a=b" (by decide) (by decide) (by decide) (by decide),
   claim_C2_long_option_value "--flag=" (by decide) (by decide) (by decide) (by decide),
   claim_C2_long_option_value "--flag" (by decide) (by decide) (by decide) (by decide)⟩

/-! ### C5 -/

/-- C5: registering two commands with case-insensitively equal names never
raises (registration is total), and afterwards both the upper-cased and the
lower-cased lookups return the last-registered command: lookup is case-folded
and the last registration wins. -/
theorem claim_C5_registry_case_folding
    (reg : Registry) (c1 c2 : Command)
    (hnames : jsToLowerCase c1.name = jsToLowerCase c2.name) :
    CommandRecordRegistry.get
        (CommandRecordRegistry.register (CommandRecordRegistry.register reg c1) c2)
        (jsToUpperCase c2.name) = some c2 ∧
    CommandRecordRegistry.get
        (CommandRecordRegistry.register (CommandRecordRegistry.register reg c1) c2)
        (jsToLowerCase c2.name) = some c2 := by
  constructor
  · rw [CommandRecordRegistry.get, jsToLowerCase_jsToUpperCase]
    exact mapGet?_set_self _ _ _
  · rw [CommandRecordRegistry.get, jsToLowerCase_jsToLowerCase]
    exact mapGet?_set_self _ _ _

/-- A second command with a case-insensitively equal name, for C5's witness. -/
def shadowingCommand : Command :=
  { name := "ReJeCt", description := "replaces the first", usage := "ReJeCt",
    validate := fun _ => { valid := true, errors := [] },
    execute := fun _ =>
      Except.ok { success := true, timestamp := 0, executionTimeMs := 0 } }

/-- Witness for C5: `"reject"` and `"ReJeCt"` collide case-insensitively; both
case-folded lookups return the later registration. -/
theorem claim_C5_witness :
    jsToLowerCase alwaysInvalidCommand.name = jsToLowerCase shadowingCommand.name ∧
    CommandRecordRegistry.get
        (CommandRecordRegistry.register
          (CommandRecordRegistry.register emptyRegistry alwaysInvalidCommand) shadowingCommand)
        (jsToUpperCase shadowingCommand.name) = some shadowingCommand ∧
    CommandRecordRegistry.get
        (CommandRecordRegistry.register
          (CommandRecordRegistry.register emptyRegistry alwaysInvalidCommand) shadowingCommand)
        (jsToLowerCase shadowingCommand.name) = some shadowingCommand :=
  ⟨by decide,
   (claim_C5_registry_case_folding emptyRegistry alwaysInvalidCommand shadowingCommand
      (by decide)).1,
   (claim_C5_registry_case_folding emptyRegistry alwaysInvalidCommand shadowingCommand
      (by decide)).2⟩

/-! ### C6 -/

/-- Unfolding equation for `on'` (definitional). -/
theorem on'_listeners (em : CLIEventEmitter.State) (event : String) (cb : Callback) :
    (CLIEventEmitter.on' em event cb).listeners =
      mapSet em.listeners event
        (CLIEventEmitter.setAdd ((mapGet? em.listeners event).getD []) cb) := rfl

/-- C6: with two listeners registered for an event (in this order) where the
first throws, `emit` still invokes the second exactly once per call and
returns normally (`emit` is total: each throw is caught per callback), and
delivery visits the callbacks in registration order. -/
theorem claim_C6_listener_isolation
    (em : CLIEventEmitter.State) (event : String) (c1 c2 : Callback)
    (hfresh : mapGet? em.listeners event = none)
    (hthrows : c1.throws = true)
    (hids : c1.id ≠ c2.id) :
    CLIEventEmitter.emit
        (CLIEventEmitter.on' (CLIEventEmitter.on' em event c1) event c2) event =
      [(c1.id, true), (c2.id, c2.throws)] ∧
    (CLIEventEmitter.emit
        (CLIEventEmitter.on' (CLIEventEmitter.on' em event c1) event c2) event).countP
      (fun p => p.1 = c2.id) = 1 := by
  have hne : c2 ≠ c1 := fun h => hids (congrArg Callback.id h).symm
  have h1 : (CLIEventEmitter.on' em event c1).listeners =
      mapSet em.listeners event [c1] := by
    rw [on'_listeners, hfresh]
    rfl
  have h2 : (CLIEventEmitter.on' (CLIEventEmitter.on' em event c1) event c2).listeners =
      mapSet (mapSet em.listeners event [c1]) event [c1, c2] := by
    rw [on'_listeners, h1, mapGet?_set_self]
    have hadd : CLIEventEmitter.setAdd [c1] c2 = [c1, c2] := by
      simp [CLIEventEmitter.setAdd, hne]
    rw [show ((some [c1]).getD ([] : List Callback)) = [c1] from rfl, hadd]
  have hemit : CLIEventEmitter.emit
      (CLIEventEmitter.on' (CLIEventEmitter.on' em event c1) event c2) event =
      [(c1.id, c1.throws), (c2.id, c2.throws)] := by
    simp [CLIEventEmitter.emit, h2, mapGet?_set_self]
  rw [hemit, hthrows]
  refine ⟨rfl, ?_⟩
  simp [List.countP_cons, hids]

/-- Witness for C6: two concrete listeners on a fresh emitter, the first of
which throws. -/
theorem claim_C6_witness :
    CLIEventEmitter.emit
        (CLIEventEmitter.on'
          (CLIEventEmitter.on' CLIEventEmitter.empty "command:executed" ⟨1, true⟩)
          "command:executed" ⟨2, false⟩) "command:executed" =
      [(1, true), (2, false)] ∧
    (CLIEventEmitter.emit
        (CLIEventEmitter.on'
          (CLIEventEmitter.on' CLIEventEmitter.empty "command:executed" ⟨1, true⟩)
          "command:executed" ⟨2, false⟩) "command:executed").countP
      (fun p => p.1 = 2) = 1 :=
  claim_C6_listener_isolation CLIEventEmitter.empty "command:executed"
    ⟨1, true⟩ ⟨2, false⟩ rfl rfl (by decide)

/-! ### C10 -/

/-- C10: `on` is idempotent for the same callback reference (the listeners are
a `Set`): adding the same callback twice yields the same emitter state as
adding it once, a subsequent `emit` invokes it exactly once, and a single
`off` removes it entirely (afterwards `emit` does not invoke it). -/
theorem claim_C10_on_idempotent
    (em : CLIEventEmitter.State) (event : String) (cb : Callback)
    (hids : ∀ c ∈ (mapGet? em.listeners event).getD [], c.id ≠ cb.id) :
    CLIEventEmitter.on' (CLIEventEmitter.on' em event cb) event cb =
      CLIEventEmitter.on' em event cb ∧
    (CLIEventEmitter.emit (CLIEventEmitter.on' (CLIEventEmitter.on' em event cb) event cb)
        event).countP (fun p => p.1 = cb.id) = 1 ∧
    (CLIEventEmitter.emit
        (CLIEventEmitter.off
          (CLIEventEmitter.on' (CLIEventEmitter.on' em event cb) event cb) event cb)
        event).countP (fun p => p.1 = cb.id) = 0 := by
  obtain ⟨s, hs⟩ : ∃ s, (mapGet? em.listeners event).getD [] = s := ⟨_, rfl⟩
  rw [hs] at hids
  have hnotmem : cb ∉ s := fun hmem => hids cb hmem rfl
  have h1 : (CLIEventEmitter.on' em event cb).listeners =
      mapSet em.listeners event (s ++ [cb]) := by
    rw [on'_listeners, hs]
    have : CLIEventEmitter.setAdd s cb = s ++ [cb] := by
      simp [CLIEventEmitter.setAdd, hnotmem]
    rw [this]
  have h2 : (CLIEventEmitter.on' (CLIEventEmitter.on' em event cb) event cb).listeners =
      mapSet em.listeners event (s ++ [cb]) := by
    rw [on'_listeners, h1, mapGet?_set_self]
    have : CLIEventEmitter.setAdd (s ++ [cb]) cb = s ++ [cb] := by
      simp [CLIEventEmitter.setAdd]
    rw [show ((some (s ++ [cb])).getD ([] : List Callback)) = s ++ [cb] from rfl, this,
      mapSet_set_same]
  have hzero : ∀ l : List Callback, (∀ c ∈ l, c.id ≠ cb.id) →
      (l.map (fun c => (c.id, c.throws))).countP (fun p => p.1 = cb.id) = 0 := by
    intro l hl
    rw [List.countP_eq_zero]
    intro a ha
    obtain ⟨c, hc, rfl⟩ := List.mem_map.mp ha
    simpa using hl c hc
  refine ⟨congrArg CLIEventEmitter.State.mk (h2.trans h1.symm), ?_, ?_⟩
  · have hemit : CLIEventEmitter.emit
        (CLIEventEmitter.on' (CLIEventEmitter.on' em event cb) event cb) event =
        (s ++ [cb]).map (fun c => (c.id, c.throws)) := by
      simp [CLIEventEmitter.emit, h2, mapGet?_set_self]
    rw [hemit, List.map_append, List.countP_append, hzero s hids]
    simp
  · have hoff : (CLIEventEmitter.off
        (CLIEventEmitter.on' (CLIEventEmitter.on' em event cb) event cb) event cb).listeners =
        mapSet em.listeners event s := by
      simp only [CLIEventEmitter.off, h2, mapGet?_set_self]
      have herase : (s ++ [cb]).erase cb = s := by
        rw [List.erase_append_right _ hnotmem]
        simp
      rw [herase, mapSet_set_same]
    have hemit : CLIEventEmitter.emit
        (CLIEventEmitter.off
          (CLIEventEmitter.on' (CLIEventEmitter.on' em event cb) event cb) event cb) event =
        s.map (fun c => (c.id, c.throws)) := by
      simp [CLIEventEmitter.emit, hoff, mapGet?_set_self]
    rw [hemit]
    exact hzero s hids

/-- Witness for C10: the same callback registered twice on a fresh emitter. -/
theorem claim_C10_witness :
    CLIEventEmitter.on'
        (CLIEventEmitter.on' CLIEventEmitter.empty "plugin:loaded" ⟨7, false⟩)
        "plugin:loaded" ⟨7, false⟩ =
      CLIEventEmitter.on' CLIEventEmitter.empty "plugin:loaded" ⟨7, false⟩ ∧
    (CLIEventEmitter.emit
        (CLIEventEmitter.on'
          (CLIEventEmitter.on' CLIEventEmitter.empty "plugin:loaded" ⟨7, false⟩)
          "plugin:loaded" ⟨7, false⟩) "plugin:loaded").countP (fun p => p.1 = 7) = 1 ∧
    (CLIEventEmitter.emit
        (CLIEventEmitter.off
          (CLIEventEmitter.on'
            (CLIEventEmitter.on' CLIEventEmitter.empty "plugin:loaded" ⟨7, false⟩)
            "plugin:loaded" ⟨7, false⟩) "plugin:loaded" ⟨7, false⟩)
        "plugin:loaded").countP (fun p => p.1 = 7) = 0 :=
  claim_C10_on_idempotent CLIEventEmitter.empty "plugin:loaded" ⟨7, false⟩
    (by intro c hc; simp [CLIEventEmitter.empty, mapGet?] at hc)

/-! ### C7 -/

/-- C7: if `plugin.initialize` throws, `loadPlugin` re-raises that error,
emits nothing (in particular no `plugin:loaded`), and leaves the manager state
unchanged — so for a plugin name that was not already loaded,
`isPluginLoaded(name)` is `false` afterwards.  If `initialize` succeeds, the
plugin is recorded under `name` and `plugin:loaded` is emitted. -/
theorem claim_C7_plugin_load
    (pm : PluginManager.State) (name : String) (plugin : Plugin) :
    (∀ e, plugin.init = Except.error e →
      PluginManager.loadPlugin pm name plugin = (pm, [], Except.error e) ∧
      (PluginManager.isPluginLoaded pm name = false →
        PluginManager.isPluginLoaded (PluginManager.loadPlugin pm name plugin).1 name
          = false)) ∧
    (plugin.init = Except.ok () →
      mapGet? (PluginManager.loadPlugin pm name plugin).1.loadedPlugins name = some plugin ∧
      (PluginManager.loadPlugin pm name plugin).2.1 = [CLIEvent.pluginLoaded name] ∧
      (PluginManager.loadPlugin pm name plugin).2.2 = Except.ok ()) := by
  constructor
  · intro e he
    refine ⟨?_, ?_⟩
    · simp [PluginManager.loadPlugin, he]
    · intro hnot
      simp [PluginManager.loadPlugin, he, hnot]
  · intro hok
    refine ⟨?_, ?_, ?_⟩
    · simp [PluginManager.loadPlugin, hok, mapGet?_set_self]
    · simp [PluginManager.loadPlugin, hok]
    · simp [PluginManager.loadPlugin, hok]

/-- A plugin whose `initialize` throws a configuration failure. -/
def failingPlugin : Plugin := ⟨Except.error "Configuration error: missing API key"⟩

/-- A plugin whose `initialize` succeeds. -/
def okPlugin : Plugin := ⟨Except.ok ()⟩

/-- Witness for C7: a failing load on a fresh manager leaves the plugin
unloaded and re-raises; a succeeding load records and emits. -/
theorem claim_C7_witness :
    PluginManager.loadPlugin PluginManager.empty "imageGen" failingPlugin =
      (PluginManager.empty, [], Except.error "Configuration error: missing API key") ∧
    PluginManager.isPluginLoaded
      (PluginManager.loadPlugin PluginManager.empty "imageGen" failingPlugin).1 "imageGen"
      = false ∧
    mapGet? (PluginManager.loadPlugin PluginManager.empty "calc" okPlugin).1.loadedPlugins
      "calc" = some okPlugin ∧
    (PluginManager.loadPlugin PluginManager.empty "calc" okPlugin).2.1 =
      [CLIEvent.pluginLoaded "calc"] :=
  ⟨((claim_C7_plugin_load PluginManager.empty "imageGen" failingPlugin).1
      "Configuration error: missing API key" rfl).1,
   ((claim_C7_plugin_load PluginManager.empty "imageGen" failingPlugin).1
      "Configuration error: missing API key" rfl).2 rfl,
   ((claim_C7_plugin_load PluginManager.empty "calc" okPlugin).2 rfl).1,
   ((claim_C7_plugin_load PluginManager.empty "calc" okPlugin).2 rfl).2.1⟩

/-! ### C8 (corrected) -/

/-- Helper: a key absent from the accumulator and different from every
command's name stays absent through `buildToolsFromCommands`' fold. -/
theorem tools_foldl_get_none (cmds : List Command) (acc : List (String × AgentTool))
    (n : String) (hacc : mapGet? acc n = none)
    (h : ∀ c ∈ cmds, c.name ≠ n) :
    mapGet? (cmds.foldl
      (fun tools command => mapSet tools command.name (ProgrammaticCLIAgent.buildTool command))
      acc) n = none := by
  induction cmds generalizing acc with
  | nil => simpa using hacc
  | cons c cs ih =>
    simp only [List.foldl_cons]
    exact ih _ (by rw [mapGet?_set_other _ _ _ _ (fun hh => h c (by simp) hh.symm)]; exact hacc)
      (fun c' hc' => h c' (by simp [hc']))

/-- Helper: `mapGet?` distributes over append when the key misses the front. -/
theorem mapGet?_append_of_none {α : Type} (a b : List (String × α)) (k : String)
    (h : mapGet? a k = none) : mapGet? (a ++ b) k = mapGet? b k := by
  induction a with
  | nil => simp
  | cons p ps ih =>
    by_cases hp : p.1 = k
    · simp [mapGet?, hp] at h
    · simp [mapGet?, hp] at h
      simp [mapGet?, hp, ih h]

/-- Helper: with pairwise-distinct command names that all miss the
accumulator, the fold appends one `(name, tool)` entry per command in order. -/
theorem tools_foldl_eq (cmds : List Command) (acc : List (String × AgentTool))
    (hnodup : (cmds.map Command.name).Nodup)
    (hacc : ∀ c ∈ cmds, mapGet? acc c.name = none) :
    cmds.foldl
      (fun tools command => mapSet tools command.name (ProgrammaticCLIAgent.buildTool command))
      acc =
    acc ++ cmds.map (fun c => (c.name, ProgrammaticCLIAgent.buildTool c)) := by
  induction cmds generalizing acc with
  | nil => simp
  | cons c cs ih =>
    rw [List.map_cons] at hnodup
    have hnd := List.nodup_cons.mp hnodup
    simp only [List.foldl_cons, List.map_cons]
    rw [mapSet_eq_append _ _ _ (hacc c (List.mem_cons_self c cs))]
    rw [ih (acc ++ [(c.name, ProgrammaticCLIAgent.buildTool c)]) hnd.2 ?_]
    · simp
    · intro c' hc'
      rw [mapGet?_append_of_none _ _ _ (hacc c' (List.mem_cons_of_mem _ hc'))]
      have hne : ¬c.name = c'.name := by
        intro hh
        exact hnd.1 (by rw [hh]; exact List.mem_map.mpr ⟨c', hc', rfl⟩)
      simp [mapGet?, hne]

/-- Helper: a well-formed registry's commands have pairwise distinct names. -/
theorem wf_names_nodup (reg : Registry) (hwf : CommandRecordRegistry.WF reg) :
    ((CommandRecordRegistry.getAll reg).map Command.name).Nodup := by
  have hkeys : reg.map (fun p => p.1) =
      ((CommandRecordRegistry.getAll reg).map Command.name).map jsToLowerCase := by
    rw [List.map_congr_left (fun p hp => hwf.2 p hp)]
    simp [CommandRecordRegistry.getAll, List.map_map, Function.comp]
  have := hwf.1
  rw [hkeys] at this
  exact this.of_map jsToLowerCase

/-- C8 (corrected): the agent's tool map is a construction-time snapshot.  For
a command `c` registered afterwards, `getTool(c.name)` returns the not-found
sentinel provided `c`'s exact name was not among the construction-time
command names (if it collides with one, the stale snapshot tool is returned —
see the counterexample), while `getTools()` still returns exactly one tool per
construction-time command, in registry order. -/
theorem claim_C8_snapshot_tools (reg : Registry) (c : Command)
    (hwf : CommandRecordRegistry.WF reg)
    (hfresh : ∀ c' ∈ CommandRecordRegistry.getAll reg, c'.name ≠ c.name) :
    CommandRecordRegistry.get (CommandRecordRegistry.register reg c) c.name = some c ∧
    ProgrammaticCLIAgent.getTool (ProgrammaticCLIAgent.mkAgent reg) c.name = none ∧
    ProgrammaticCLIAgent.getTools (ProgrammaticCLIAgent.mkAgent reg) =
      (CommandRecordRegistry.getAll reg).map ProgrammaticCLIAgent.buildTool := by
  refine ⟨?_, ?_, ?_⟩
  · rw [CommandRecordRegistry.get, CommandRecordRegistry.register]
    exact mapGet?_set_self _ _ _
  · exact tools_foldl_get_none _ _ _ rfl hfresh
  · rw [ProgrammaticCLIAgent.getTools, ProgrammaticCLIAgent.mkAgent]
    simp only
    rw [tools_foldl_eq (CommandRecordRegistry.getAll reg) [] (wf_names_nodup reg hwf)
      (fun _ _ => rfl)]
    simp [List.map_map, Function.comp]

/-- A second distinct command that reuses the name `"reject"` after the agent
snapshot was taken, for the C8 counterexample. -/
def lateRejectCommand : Command :=
  { name := "reject", description := "registered after the snapshot", usage := "reject <x>",
    validate := fun _ => { valid := true, errors := [] },
    execute := fun _ =>
      Except.ok { success := true, timestamp := 1, executionTimeMs := 0 } }

/-- Counterexample to C8 as stated: register `alwaysInvalidCommand` (named
`"reject"`), build the agent, then register the distinct `lateRejectCommand`
(also named `"reject"`).  The late command is registered in the registry, yet
`getTool("reject")` returns the stale snapshot tool — not the claimed
not-found sentinel `null`. -/
theorem claim_C8_counterexample :
    CommandRecordRegistry.get
        (CommandRecordRegistry.register
          (CommandRecordRegistry.register emptyRegistry alwaysInvalidCommand)
          lateRejectCommand)
        lateRejectCommand.name = some lateRejectCommand ∧
    ProgrammaticCLIAgent.getTool
        (ProgrammaticCLIAgent.mkAgent
          (CommandRecordRegistry.register emptyRegistry alwaysInvalidCommand))
        lateRejectCommand.name =
      some (ProgrammaticCLIAgent.buildTool alwaysInvalidCommand) ∧
    some (ProgrammaticCLIAgent.buildTool alwaysInvalidCommand) ≠ (none : Option AgentTool) :=
  ⟨rfl, rfl, by simp⟩

/-- Witness for C8 (corrected): a registry holding `alwaysInvalidCommand`,
with `selfTimingCommand` (fresh name `"timer"`) registered after the agent was
built. -/
theorem claim_C8_witness :
    CommandRecordRegistry.get
        (CommandRecordRegistry.register
          (CommandRecordRegistry.register emptyRegistry alwaysInvalidCommand)
          selfTimingCommand)
        selfTimingCommand.name = some selfTimingCommand ∧
    ProgrammaticCLIAgent.getTool
        (ProgrammaticCLIAgent.mkAgent
          (CommandRecordRegistry.register emptyRegistry alwaysInvalidCommand))
        selfTimingCommand.name = none ∧
    ProgrammaticCLIAgent.getTools
        (ProgrammaticCLIAgent.mkAgent
          (CommandRecordRegistry.register emptyRegistry alwaysInvalidCommand)) =
      (CommandRecordRegistry.getAll
          (CommandRecordRegistry.register emptyRegistry alwaysInvalidCommand)).map
        ProgrammaticCLIAgent.buildTool :=
  claim_C8_snapshot_tools
    (CommandRecordRegistry.register emptyRegistry alwaysInvalidCommand)
    selfTimingCommand
    (by constructor
        · decide
        · intro p hp
          simp [CommandRecordRegistry.register, emptyRegistry, mapSet] at hp
          rw [hp])
    (by intro c' hc'
        simp [CommandRecordRegistry.getAll, CommandRecordRegistry.register,
          emptyRegistry, mapSet] at hc'
        rw [hc']
        decide)

/-! ### C9 (corrected) -/

/-- Predicate: `sub` occurs as a substring of `s`. -/
def containsSubstring (s sub : String) : Prop :=
  ∃ a b, s = a ++ sub ++ b

/-- Counterexample to C9 as stated: a failure result whose `error` string
itself contains `"Execution time"` produces a text rendering that contains the
`"Execution time"` substring (the universal "contains no such substring" part
of the claim is therefore false; the formatter itself appends no such text —
see the amended theorem). -/
theorem claim_C9_counterexample :
    CLIOutputFormatter.format
        { success := false, error := some "Execution time: 5ms", message := none,
          data := none, timestamp := 0, executionTimeMs := 0 } OutputFormat.text =
      "❌ Error: Execution time: 5ms" ∧
    containsSubstring
      (CLIOutputFormatter.format
        { success := false, error := some "Execution time: 5ms", message := none,
          data := none, timestamp := 0, executionTimeMs := 0 } OutputFormat.text)
      "Execution time" := by
  constructor
  · rfl
  · exact ⟨"❌ Error: ", ": 5ms", by decide⟩

/-- C9 (amended): in text mode a failure result renders as exactly
`"❌ Error"`, plus `": " + error` when `error` is (JS-truthily) present, plus
`"\nMessage: " + message` when `message` is present — so the output begins
with `"❌ Error"` and the formatter appends no execution-time text of its own
(any `"Execution time"` occurrence can only come from the `error`/`message`
contents, as in the counterexample).  A success result renders with the
trailing `"\n\nExecution time: {ms}ms"` suffix. -/
theorem claim_C9_text_formatting (r : CommandResult) :
    (r.success = false →
      CLIOutputFormatter.format r OutputFormat.text =
        (if CLIOutputFormatter.jsTruthyStr r.error
           then "❌ Error" ++ ": " ++ r.error.getD ""
           else "❌ Error") ++
        (if CLIOutputFormatter.jsTruthyStr r.message
           then "\nMessage: " ++ r.message.getD ""
           else "") ∧
      jsStartsWith (CLIOutputFormatter.format r OutputFormat.text) "❌ Error" = true) ∧
    (r.success = true →
      CLIOutputFormatter.format r OutputFormat.text =
        ((if CLIOutputFormatter.jsTruthyStr r.message
            then "✅ Success" ++ ": " ++ r.message.getD ""
            else "✅ Success") ++
         (if CLIOutputFormatter.jsTruthyData r.data
            then "\n\nData:\n" ++ CLIOutputFormatter.renderData r.data
            else "")) ++
        ("\n\nExecution time: " ++ toString r.executionTimeMs ++ "ms")) := by
  constructor
  · intro hfail
    have hfmt : CLIOutputFormatter.format r OutputFormat.text =
        (if CLIOutputFormatter.jsTruthyStr r.error
           then "❌ Error" ++ ": " ++ r.error.getD ""
           else "❌ Error") ++
        (if CLIOutputFormatter.jsTruthyStr r.message
           then "\nMessage: " ++ r.message.getD ""
           else "") := by
      by_cases he : CLIOutputFormatter.jsTruthyStr r.error <;>
        by_cases hm : CLIOutputFormatter.jsTruthyStr r.message
      · simp [CLIOutputFormatter.format, CLIOutputFormatter.formatText, hfail, he, hm,
          String.append_assoc]
      · simp [CLIOutputFormatter.format, CLIOutputFormatter.formatText, hfail, he, hm,
          String.append_assoc]
      · simp only [CLIOutputFormatter.format, CLIOutputFormatter.formatText, hfail, he, hm,
          Bool.false_ne_true, if_false, if_true]
        exact (congrArg (· ++ r.message.getD "") (by decide :
            ("❌ Error\nMessage: " : String) = "❌ Error" ++ "\nMessage: ")).trans
          (String.append_assoc _ _ _)
      · simp [CLIOutputFormatter.format, CLIOutputFormatter.formatText, hfail, he, hm]
    refine ⟨hfmt, ?_⟩
    rw [hfmt]
    apply jsStartsWith_of_prefix
    by_cases he : CLIOutputFormatter.jsTruthyStr r.error <;>
      by_cases hm : CLIOutputFormatter.jsTruthyStr r.message <;>
        simp [he, hm, String.data_append, List.append_assoc]
  · intro hsucc
    by_cases hm : CLIOutputFormatter.jsTruthyStr r.message <;>
      by_cases hd : CLIOutputFormatter.jsTruthyData r.data
    · simp [CLIOutputFormatter.format, CLIOutputFormatter.formatText, hsucc, hm, hd,
        String.append_assoc]
    · simp [CLIOutputFormatter.format, CLIOutputFormatter.formatText, hsucc, hm, hd,
        String.append_assoc]
    · simp only [CLIOutputFormatter.format, CLIOutputFormatter.formatText, hsucc, hm, hd,
        Bool.false_ne_true, if_false, if_true, String.append_empty, String.append_assoc]
    · simp only [CLIOutputFormatter.format, CLIOutputFormatter.formatText, hsucc, hm, hd,
        Bool.false_ne_true, if_false, if_true, String.append_empty, String.append_assoc]
      exact (congrArg (· ++ (toString r.executionTimeMs ++ "ms"))
          (by decide : ("✅ Success\n\nExecution time: " : String) =
            "✅ Success" ++ "\n\nExecution time: ")).trans
        (String.append_assoc _ _ _)

/-- Witness for C9 (amended): the concrete failure `{success:false,
error:"X"}` renders as `"❌ Error: X"` with no execution-time suffix, and a
concrete success renders with the trailing execution-time suffix. -/
theorem claim_C9_witness :
    (CLIOutputFormatter.format
        { success := false, error := some "X", message := none, data := none,
          timestamp := 0, executionTimeMs := 7 } OutputFormat.text =
      "❌ Error" ++ ": " ++ "X" ++ "" ∧
     jsStartsWith
       (CLIOutputFormatter.format
         { success := false, error := some "X", message := none, data := none,
           timestamp := 0, executionTimeMs := 7 } OutputFormat.text) "❌ Error" = true) ∧
    CLIOutputFormatter.format
        { success := true, error := none, message := some "hi", data := none,
          timestamp := 0, executionTimeMs := 7 } OutputFormat.text =
      "✅ Success: hi" ++ "\n\nExecution time: 7ms" :=
  ⟨by
    have h := (claim_C9_text_formatting
      { success := false, error := some "X", message := none, data := none,
        timestamp := 0, executionTimeMs := 7 }).1 rfl
    exact ⟨by rw [h.1]; decide, h.2⟩,
   by
    have h := (claim_C9_text_formatting
      { success := true, error := none, message := some "hi", data := none,
        timestamp := 0, executionTimeMs := 7 }).2 rfl
    rw [h]
    decide⟩
